import Mathlib

/-!
Verification development for the steam-to-tiermaker repository.

The Python source is shallowly embedded: pure fragments become Lean
functions; every interaction with the outside world (the browser DOM,
the network, the filesystem, Python's per-process string hash) is an
explicit oracle parameter.  Machine integers play no role (Python ints
are unbounded), so `Nat`/`Int` are used directly.
-/

namespace SteamToTiermaker

/-! ## String utilities shared by the embedding -/

/-- ASCII lowering of one character, used to model Python `str.lower()`
on the ASCII range (the inputs the code compares are ASCII literals). -/
def asciiLowerChar (c : Char) : Char :=
  if 'A' ≤ c ∧ c ≤ 'Z' then Char.ofNat (c.toNat + 32) else c

/-- Model of Python `str.lower()` (ASCII range). -/
def asciiLower (s : String) : String :=
  String.mk (s.toList.map asciiLowerChar)

/-- Boolean infix test on character lists: models Python's
`pat in s` substring containment. -/
def listInfix (pat : List Char) : List Char → Bool
  | [] => pat.isEmpty
  | c :: rest => pat.isPrefixOf (c :: rest) || listInfix pat rest

/-- Model of Python `pat in s` on strings. -/
def containsSubstr (pat s : String) : Bool :=
  listInfix pat.toList s.toList

/-- Model of `src.startswith("http") or src.startswith("https")`
(the guard in `download_image`, src/steam_image_scraper.py line 224,
with the redundant second disjunct kept as in the source). -/
def pyStartsHttp (src : String) : Bool :=
  ("http".toList).isPrefixOf src.toList || ("https".toList).isPrefixOf src.toList

/-- Model of Python slicing `s[-8:]`: the last `min 8 (len s)` characters. -/
def last8 (s : String) : String :=
  String.mk ((s.toList.reverse.take 8).reverse)

/-! ## `SteamImageScraper.sanitize_filename` (src/steam_image_scraper.py 189-197)

```python
filename = re.sub(r'[<>:"/\\|?*]', '_', filename)
filename = re.sub(r'\s+', '_', filename.strip())
if len(filename) > 100:
    filename = filename[:100]
```
-/

/-- The character class of the first regex: `[<>:"/\\|?*]`. -/
def unsafeChars : List Char := ['<', '>', ':', '"', '/', '\\', '|', '?', '*']

/-- Whether `c` is replaced by the first regex. -/
def isUnsafeChar (c : Char) : Bool := unsafeChars.contains c

/-- Model of the regex class `\s` / `str.strip()` whitespace on the
ASCII range. -/
def pyIsSpace (c : Char) : Bool :=
  c = ' ' || c = '\t' || c = '\n' || c = '\r' || c = '\x0b' || c = '\x0c'

/-- `re.sub(r'[<>:"/\\|?*]', '_', ·)` on a character list. -/
def replaceUnsafe (l : List Char) : List Char :=
  l.map (fun c => if isUnsafeChar c then '_' else c)

/-- Python `str.strip()`: drop leading and trailing whitespace. -/
def pyStrip (l : List Char) : List Char :=
  ((l.dropWhile pyIsSpace).reverse.dropWhile pyIsSpace).reverse

/-- `re.sub(r'\s+', '_', ·)`, character by character: `prevSpace`
records whether the previous character belonged to a whitespace run
whose single replacement underscore has already been emitted, so each
maximal nonempty run of whitespace becomes exactly one underscore. -/
def collapseAux : Bool → List Char → List Char
  | _, [] => []
  | prevSpace, c :: rest =>
    if pyIsSpace c then
      if prevSpace then collapseAux true rest
      else '_' :: collapseAux true rest
    else c :: collapseAux false rest

/-- `re.sub(r'\s+', '_', ·)`: each maximal nonempty run of whitespace
becomes a single underscore. -/
def collapseWs (l : List Char) : List Char := collapseAux false l

/-- `SteamImageScraper.sanitize_filename` on a character list. -/
def sanitizeList (l : List Char) : List Char :=
  (collapseWs (pyStrip (replaceUnsafe l))).take 100

/-- `SteamImageScraper.sanitize_filename` (src/steam_image_scraper.py 189-197). -/
def sanitize_filename (s : String) : String :=
  String.mk (sanitizeList s.toList)

/-! ## Data model of one extracted reference

The in-page extractor query (src/steam_image_scraper.py 140-183) emits
dictionaries whose keys relevant to the download logic are `src`, `alt`
and `title`.  The download code reads them with defaults
(`img_info.get('src', '')`, `get('alt', 'no_alt')`, `get('title', '')`),
so an absent key is represented by the corresponding default string. -/

structure ImgInfo where
  src : String
  alt : String
  title : String
deriving DecidableEq, Repr

/-! ## Filename derivation (src/steam_image_scraper.py 228-236 and 205-212)

```python
filename_base = alt if alt != 'no_alt' else title
if not filename_base:
    url_hash = str(hash(src))[-8:]
    filename_base = f"image_{url_hash}"
filename = self.sanitize_filename(filename_base)
filepath = os.path.join(self.output_folder, f"{filename}.jpg")
```

Python's built-in `hash` on strings is salted per process
(`PYTHONHASHSEED` randomisation), so it is modelled as an oracle
`pyhash : String → Int` supplied by the run. -/

/-- `filename_base` before the hash fallback:
`alt if alt != 'no_alt' else title`. -/
def filenameBase (img : ImgInfo) : String :=
  if img.alt ≠ "no_alt" then img.alt else img.title

/-- The derived (sanitized) file name, without directory or extension. -/
def deriveFilename (pyhash : String → Int) (img : ImgInfo) : String :=
  sanitize_filename
    (if filenameBase img = "" then "image_" ++ last8 (toString (pyhash img.src))
     else filenameBase img)

/-- `os.path.join(self.output_folder, f"{filename}.jpg")` (POSIX join with
a separator-free folder argument). -/
def derivePath (pyhash : String → Int) (folder : String) (img : ImgInfo) : String :=
  folder ++ "/" ++ deriveFilename pyhash img ++ ".jpg"

/-- `SteamImageScraper._check_if_image_exists` (src/steam_image_scraper.py
199-214): recomputes the derived path and asks the filesystem.  The
filesystem at the moment of the call is the oracle `fsExists`. -/
def check_if_image_exists (pyhash : String → Int) (fsExists : String → Bool)
    (folder : String) (img : ImgInfo) : Bool :=
  fsExists (derivePath pyhash folder img)

/-! ## `SteamImageScraper.download_image` (src/steam_image_scraper.py 216-257)

The routine returns `False` when
  * `src` is falsy or starts with neither `"http"` nor `"https"` (line 224),
  * `src` contains `"defaultappheader.png"` (line 242, inside the `try`
    but before `requests.get`), or
  * the fetch / decode / save step raises (lines 246-251, collapsed into
    the `except` at 255);
otherwise it returns `True`.  The whole fetch-decode-save outcome is one
oracle bit `net` (the network and image pipeline either all succeed or
the exception handler returns `False`). -/
def download_image (net : Bool) (img : ImgInfo) : Bool :=
  if img.src = "" || (!pyStartsHttp img.src) then false
  else if containsSubstr "defaultappheader.png" img.src then false
  else net

/-! ## The download phase of `SteamImageScraper.scrape_images`
(src/steam_image_scraper.py 341-437)

Pass 1 walks the extracted list in order, counting one success or one
failure per item and collecting failures as `(original_index, img)`
pairs.  The retry pass walks exactly those pairs, in order, moving one
unit from `failed` to `successful` on a retry success.  The network
outcome of the attempt on item `i` in pass 1 (resp. the retry pass) is
the oracle bit `net1 i` (resp. `net2 i`). -/

/-- Pass 1 (lines 348-377), started at index `i`: returns
(successful_downloads, failed_downloads, failed_images). -/
def pass1 (net1 : Nat → Bool) : Nat → List ImgInfo → Nat × Nat × List (Nat × ImgInfo)
  | _, [] => (0, 0, [])
  | i, img :: rest =>
    let r := pass1 net1 (i + 1) rest
    if download_image (net1 i) img then (r.1 + 1, r.2.1, r.2.2)
    else (r.1, r.2.1 + 1, (i, img) :: r.2.2)

/-- The retry pass (lines 379-409) over the failed list, threading the
running counters `s` and `f`; the third component records the original
indices attempted, in attempt order. -/
def retryPass (net2 : Nat → Bool) (s f : Nat) :
    List (Nat × ImgInfo) → Nat × Nat × List Nat
  | [] => (s, f, [])
  | (i, img) :: rest =>
    let r :=
      if download_image (net2 i) img then retryPass net2 (s + 1) (f - 1) rest
      else retryPass net2 s f rest
    (r.1, r.2.1, i :: r.2.2)

/-- The structured result dictionary of `scrape_images`
(src/steam_image_scraper.py 267-273, 328-334, 431-437). -/
structure ScrapeResult where
  totalImagesFound : Nat
  successfulDownloads : Nat
  failedDownloads : Nat
  failedGames : List String
  success : Bool
deriving DecidableEq, Repr

/-- Lines 326-437 of `scrape_images`: the empty-extraction early return,
the two download passes, and the final failure report.  `failed_games`
(lines 423-428) keeps a pass-1 failure only when its derived path does
not exist on disk at reporting time. -/
def download_phase (net1 net2 : Nat → Bool) (pyhash : String → Int)
    (fsExists : String → Bool) (folder : String) (imgs : List ImgInfo) :
    ScrapeResult :=
  if imgs.length = 0 then ⟨0, 0, 0, [], false⟩
  else
    let p := pass1 net1 0 imgs
    let r := retryPass net2 p.1 p.2.1 p.2.2
    let failedGames :=
      (p.2.2.filter
        (fun q => !check_if_image_exists pyhash fsExists folder q.2)).map
        (fun q => q.2.alt)
    ⟨imgs.length, r.1, r.2.1, failedGames, true⟩

/-! ## The login gate of `scrape_images` (src/steam_image_scraper.py 282-315)

Each `execute_script("return document.body.className;")` call is one
observation of the external page; `classAt q` is the class string
returned by the `q`-th such call (the call at line 283 is observation 0,
the in-loop calls at line 300 are observations 1, 2, …, and the final
check at line 308 is one further observation). -/

/-- `"login" in classes.lower()`. -/
def loginIn (classes : String) : Bool :=
  containsSubstr "login" (asciiLower classes)

/-- The polling loop (lines 291-305): `q` is the next observation index,
the second argument the remaining iterations (`max_wait_time = 300`,
`wait_interval = 3`, so 100 iterations).  Returns the observation index
used by the final check at line 308. -/
def loginWaitEnd (classAt : Nat → String) : Nat → Nat → Nat
  | q, 0 => q
  | q, r + 1 => if loginIn (classAt q) then loginWaitEnd classAt (q + 1) r else q + 1

/-- `SteamImageScraper.scrape_images` (src/steam_image_scraper.py 259-456),
with the browser/network/filesystem world passed as oracles.  `none`
models Python's bare `return` (the value `None`) at line 315; every
other path returns a `ScrapeResult` dictionary. -/
def scrape_images (url : String) (classAt : Nat → String)
    (net1 net2 : Nat → Bool) (pyhash : String → Int)
    (fsExists : String → Bool) (folder : String) (imgs : List ImgInfo) :
    Option ScrapeResult :=
  if url = "" then some ⟨0, 0, 0, [], false⟩
  else if loginIn (classAt 0) then
    let q := loginWaitEnd classAt 1 100
    if loginIn (classAt q) then none
    else some (download_phase net1 net2 pyhash fsExists folder imgs)
  else some (download_phase net1 net2 pyhash fsExists folder imgs)

/-! ## `SteamImageScraper._scroll_to_load_all_content`
(src/steam_image_scraper.py 96-133)

```python
current_scroll = 0
while attempts < max_attempts:
    current_scroll += scroll_increment
    window.scrollTo(0, current_scroll)
    new_height = document.body.scrollHeight
    if current_scroll >= new_height: break
    attempts += 1
window.scrollTo(0, 0)
```

`heights t` is the scrollable height the page reports at the `t`-th
in-loop height read (the page may grow as content lazy-loads).  The
function returns the list of scroll offsets commanded, in order; the
trailing `0` is the scroll-back-to-top at line 131. -/

/-- The scroll loop body: current offset `cur`, next height-read index
`t`, remaining attempts.  Emits every commanded offset. -/
def scrollSteps (heights : Nat → Nat) (inc : Nat) : Nat → Nat → Nat → List Nat
  | _, _, 0 => []
  | cur, t, r + 1 =>
    let cur2 := cur + inc
    cur2 :: (if heights t ≤ cur2 then [] else scrollSteps heights inc cur2 (t + 1) r)

/-- `SteamImageScraper._scroll_to_load_all_content`: the full trace of
scroll commands, ending with the scroll back to the top. -/
def scroll_to_load_all_content (heights : Nat → Nat) (inc maxAttempts : Nat) :
    List Nat :=
  scrollSteps heights inc 0 0 maxAttempts ++ [0]

/-! ## `TierMakerUploader.get_image_files` (src/tiermaker_uploader.py 90-105)
and the absolute-path conversion at line 278.

`folderExists` models `os.path.exists(self.images_folder)`; `listing`
is the value of `os.listdir` (in directory-listing order); `abspath`
models `os.path.abspath`. -/

/-- The fixed extension set (line 96). -/
def imageExtensions : List String := [".jpg", ".jpeg", ".png", ".gif", ".webp"]

/-- `any(filename.lower().endswith(ext) for ext in image_extensions)`. -/
def isImageFilename (filename : String) : Bool :=
  imageExtensions.any (fun ext => ext.toList.isSuffixOf (asciiLower filename).toList)

/-- The accumulation loop of `get_image_files` (lines 99-102). -/
def gatherImages (folder : String) : List String → List String
  | [] => []
  | f :: rest =>
    if isImageFilename f then (folder ++ "/" ++ f) :: gatherImages folder rest
    else gatherImages folder rest

/-- `TierMakerUploader.get_image_files` (src/tiermaker_uploader.py 90-105). -/
def get_image_files (folderExists : Bool) (folder : String)
    (listing : List String) : List String :=
  if !folderExists then [] else gatherImages folder listing

/-- The UploadBatch: `get_image_files` output mapped through
`os.path.abspath` (src/tiermaker_uploader.py 278). -/
def uploadBatch (abspath : String → String) (folderExists : Bool)
    (folder : String) (listing : List String) : List String :=
  (get_image_files folderExists folder listing).map abspath

/-! ## The Element Acquisition Protocol
(src/tiermaker_uploader.py 179-266)

The page is external; each strategy's success is an oracle bit:
  * `byIdWait`   — the 15 s `WebDriverWait` on id `extra-images-input`
                   (line 181) finds the element;
  * `byCssWait`  — the CSS-selector wait (line 197) finds it;
  * `clickFound` — the click-then-retry heuristic (lines 213-239)
                   leaves `file_input` bound;
  * `finalById`  — the final `find_element` by id (line 262) succeeds.

In the source, style forcing (`display`/`visibility`/`opacity`, three
`execute_script` calls) happens only at lines 187-189 (after the id
wait) and 203-205 (after the CSS wait); the click-heuristic and
final-attempt paths bind `file_input` without any style forcing, and
the final `find_element` at line 262 runs after the click heuristic and
re-binds (or fails and returns `False` at line 266). -/

structure UploadPage where
  byIdWait : Bool
  byCssWait : Bool
  clickFound : Bool
  finalById : Bool
deriving DecidableEq, Repr

inductive Strategy where
  | byId
  | byCss
  | click
  | final
deriving DecidableEq, Repr

/-- Which strategy binds the upload control, and whether the bound
control had its display/visibility/opacity styling forced to visible,
following the control flow of lines 179-266; `none` models the
`return False` at line 266. -/
def locate_upload_control (p : UploadPage) : Option (Strategy × Bool) :=
  if p.byIdWait then some (Strategy.byId, true)
  else if p.byCssWait then some (Strategy.byCss, true)
  else if p.clickFound then
    if p.finalById then some (Strategy.click, false) else none
  else if p.finalById then some (Strategy.final, false)
  else none

/-! ## Lemmas about `sanitize_filename` -/

theorem mem_dropWhile_mem {α : Type} {p : α → Bool} {l : List α} {c : α}
    (h : c ∈ l.dropWhile p) : c ∈ l := by
  induction l with
  | nil => simp [List.dropWhile] at h
  | cons a rest ih =>
    by_cases hp : p a
    · simp only [List.dropWhile, hp] at h
      exact List.mem_cons_of_mem a (ih h)
    · simpa [List.dropWhile, hp] using h

theorem dropWhile_eq_self {α : Type} {p : α → Bool} {l : List α}
    (h : ∀ c ∈ l, p c = false) : l.dropWhile p = l := by
  cases l with
  | nil => rfl
  | cons a rest => simp [List.dropWhile, h a (List.mem_cons_self a rest)]

theorem mem_pyStrip_mem {l : List Char} {c : Char} (h : c ∈ pyStrip l) : c ∈ l := by
  unfold pyStrip at h
  rw [List.mem_reverse] at h
  have h1 := mem_dropWhile_mem h
  rw [List.mem_reverse] at h1
  exact mem_dropWhile_mem h1

theorem pyStrip_eq_self {l : List Char} (h : ∀ c ∈ l, pyIsSpace c = false) :
    pyStrip l = l := by
  unfold pyStrip
  rw [dropWhile_eq_self h]
  rw [dropWhile_eq_self (fun c hc => h c (List.mem_reverse.mp hc))]
  exact List.reverse_reverse l

theorem mem_replaceUnsafe_not_unsafe {l : List Char} {c : Char}
    (h : c ∈ replaceUnsafe l) : isUnsafeChar c = false := by
  unfold replaceUnsafe at h
  rw [List.mem_map] at h
  obtain ⟨a, _, ha⟩ := h
  by_cases hu : isUnsafeChar a = true
  · rw [if_pos hu] at ha
    rw [← ha]
    decide
  · rw [if_neg hu] at ha
    rw [← ha]
    exact Bool.of_not_eq_true hu

theorem replaceUnsafe_eq_self {l : List Char}
    (h : ∀ c ∈ l, isUnsafeChar c = false) : replaceUnsafe l = l := by
  unfold replaceUnsafe
  induction l with
  | nil => rfl
  | cons a rest ih =>
    have ha := h a (List.mem_cons_self a rest)
    rw [List.map_cons, if_neg (by simp [ha]),
      ih (fun c hc => h c (List.mem_cons_of_mem a hc))]

theorem mem_collapseAux {b : Bool} {l : List Char} {c : Char}
    (h : c ∈ collapseAux b l) : c = '_' ∨ c ∈ l := by
  induction l generalizing b with
  | nil => simp [collapseAux] at h
  | cons a rest ih =>
    simp only [collapseAux] at h
    by_cases hsp : pyIsSpace a = true
    · rw [if_pos hsp] at h
      cases b with
      | true =>
        rw [if_pos rfl] at h
        rcases ih h with h1 | h1
        · exact Or.inl h1
        · exact Or.inr (List.mem_cons_of_mem a h1)
      | false =>
        rw [if_neg (by decide)] at h
        rcases List.mem_cons.mp h with h1 | h1
        · exact Or.inl h1
        · rcases ih h1 with h2 | h2
          · exact Or.inl h2
          · exact Or.inr (List.mem_cons_of_mem a h2)
    · rw [if_neg hsp] at h
      rcases List.mem_cons.mp h with h1 | h1
      · exact Or.inr (h1 ▸ List.mem_cons_self a rest)
      · rcases ih h1 with h2 | h2
        · exact Or.inl h2
        · exact Or.inr (List.mem_cons_of_mem a h2)

theorem mem_collapseWs {l : List Char} {c : Char} (h : c ∈ collapseWs l) :
    c = '_' ∨ c ∈ l :=
  mem_collapseAux h

theorem mem_collapseAux_not_space {b : Bool} {l : List Char} {c : Char}
    (h : c ∈ collapseAux b l) : pyIsSpace c = false := by
  induction l generalizing b with
  | nil => simp [collapseAux] at h
  | cons a rest ih =>
    simp only [collapseAux] at h
    by_cases hsp : pyIsSpace a = true
    · rw [if_pos hsp] at h
      cases b with
      | true =>
        rw [if_pos rfl] at h
        exact ih h
      | false =>
        rw [if_neg (by decide)] at h
        rcases List.mem_cons.mp h with h1 | h1
        · rw [h1]; decide
        · exact ih h1
    · rw [if_neg hsp] at h
      rcases List.mem_cons.mp h with h1 | h1
      · rw [h1]; exact Bool.of_not_eq_true hsp
      · exact ih h1

theorem mem_collapseWs_not_space {l : List Char} {c : Char}
    (h : c ∈ collapseWs l) : pyIsSpace c = false :=
  mem_collapseAux_not_space h

theorem collapseAux_eq_self {l : List Char}
    (h : ∀ c ∈ l, pyIsSpace c = false) (b : Bool) : collapseAux b l = l := by
  induction l generalizing b with
  | nil => rfl
  | cons a rest ih =>
    simp only [collapseAux]
    rw [if_neg (by simp [h a (List.mem_cons_self a rest)])]
    rw [ih (fun c hc => h c (List.mem_cons_of_mem a hc)) false]

theorem collapseWs_eq_self {l : List Char}
    (h : ∀ c ∈ l, pyIsSpace c = false) : collapseWs l = l :=
  collapseAux_eq_self h false

theorem sanitizeList_length_le (l : List Char) : (sanitizeList l).length ≤ 100 := by
  unfold sanitizeList
  exact (List.length_take_le 100 _)

theorem mem_sanitizeList_clean {l : List Char} {c : Char} (h : c ∈ sanitizeList l) :
    isUnsafeChar c = false ∧ pyIsSpace c = false := by
  unfold sanitizeList at h
  have h1 : c ∈ collapseWs (pyStrip (replaceUnsafe l)) := List.take_subset 100 _ h
  refine ⟨?_, mem_collapseWs_not_space h1⟩
  rcases mem_collapseWs h1 with h2 | h2
  · rw [h2]; decide
  · exact mem_replaceUnsafe_not_unsafe (mem_pyStrip_mem h2)

theorem sanitizeList_idem (l : List Char) :
    sanitizeList (sanitizeList l) = sanitizeList l := by
  have hclean := fun c hc => mem_sanitizeList_clean (l := l) (c := c) hc
  conv_lhs => rw [sanitizeList]
  rw [replaceUnsafe_eq_self (fun c hc => (hclean c hc).1)]
  rw [pyStrip_eq_self (fun c hc => (hclean c hc).2)]
  rw [collapseWs_eq_self (fun c hc => (hclean c hc).2)]
  exact List.take_of_length_le (sanitizeList_length_le l)

/-- C10: `sanitize_filename` is idempotent; its output has length at
most 100 and contains no filesystem-unsafe character from the class
`[<>:"/\\|?*]` and no whitespace character. -/
theorem C10_sanitize_idempotent_bounded_clean (s : String) :
    sanitize_filename (sanitize_filename s) = sanitize_filename s ∧
    (sanitize_filename s).length ≤ 100 ∧
    (sanitize_filename s).toList.all
      (fun c => !isUnsafeChar c && !pyIsSpace c) = true := by
  refine ⟨?_, ?_, ?_⟩
  · show String.mk (sanitizeList (sanitizeList s.toList)) =
      String.mk (sanitizeList s.toList)
    rw [sanitizeList_idem]
  · show (sanitizeList s.toList).length ≤ 100
    exact sanitizeList_length_le _
  · rw [List.all_eq_true]
    intro c hc
    have hcl : c ∈ sanitizeList s.toList := hc
    have h2 := mem_sanitizeList_clean hcl
    simp [h2.1, h2.2]

/-! ## Lemmas about the two download passes -/

theorem pass1_sum (net1 : Nat → Bool) (i : Nat) (imgs : List ImgInfo) :
    (pass1 net1 i imgs).1 + (pass1 net1 i imgs).2.1 = imgs.length := by
  induction imgs generalizing i with
  | nil => rfl
  | cons img rest ih =>
    simp only [pass1]
    by_cases h : download_image (net1 i) img = true
    · simp only [h, if_pos]
      have := ih (i + 1)
      simp only [List.length_cons]
      omega
    · rw [if_neg h]
      have := ih (i + 1)
      simp only [List.length_cons]
      omega

theorem pass1_failed_length (net1 : Nat → Bool) (i : Nat) (imgs : List ImgInfo) :
    (pass1 net1 i imgs).2.2.length = (pass1 net1 i imgs).2.1 := by
  induction imgs generalizing i with
  | nil => rfl
  | cons img rest ih =>
    simp only [pass1]
    by_cases h : download_image (net1 i) img = true
    · simp only [h, if_pos]
      exact ih (i + 1)
    · rw [if_neg h]
      simp only [List.length_cons]
      rw [ih (i + 1)]

theorem pass1_failed_bounds (net1 : Nat → Bool) (i : Nat) (imgs : List ImgInfo) :
    ∀ q ∈ (pass1 net1 i imgs).2.2, i ≤ q.1 ∧ q.1 < i + imgs.length := by
  induction imgs generalizing i with
  | nil => intro q hq; simp [pass1] at hq
  | cons img rest ih =>
    intro q hq
    simp only [pass1] at hq
    by_cases h : download_image (net1 i) img = true
    · rw [if_pos h] at hq
      have := ih (i + 1) q hq
      simp only [List.length_cons]
      omega
    · rw [if_neg h] at hq
      rcases List.mem_cons.mp hq with h1 | h1
      · rw [h1]
        simp only [List.length_cons]
        omega
      · have := ih (i + 1) q h1
        simp only [List.length_cons]
        omega

theorem pass1_failed_sorted (net1 : Nat → Bool) (i : Nat) (imgs : List ImgInfo) :
    ((pass1 net1 i imgs).2.2.map Prod.fst).Pairwise (· < ·) := by
  induction imgs generalizing i with
  | nil => simp [pass1]
  | cons img rest ih =>
    simp only [pass1]
    by_cases h : download_image (net1 i) img = true
    · rw [if_pos h]
      exact ih (i + 1)
    · rw [if_neg h]
      simp only [List.map_cons]
      rw [List.pairwise_cons]
      refine ⟨?_, ih (i + 1)⟩
      intro j hj
      rw [List.mem_map] at hj
      obtain ⟨q, hq, hqj⟩ := hj
      have := pass1_failed_bounds net1 (i + 1) rest q hq
      omega

theorem retryPass_attempts (net2 : Nat → Bool) (s f : Nat)
    (fl : List (Nat × ImgInfo)) :
    (retryPass net2 s f fl).2.2 = fl.map Prod.fst := by
  induction fl generalizing s f with
  | nil => rfl
  | cons q rest ih =>
    obtain ⟨i, img⟩ := q
    simp only [retryPass, List.map_cons]
    by_cases h : download_image (net2 i) img = true
    · rw [if_pos h, ih]
    · rw [if_neg h, ih]

theorem retryPass_sum (net2 : Nat → Bool) (fl : List (Nat × ImgInfo))
    (s f : Nat) (hf : fl.length ≤ f) :
    (retryPass net2 s f fl).1 + (retryPass net2 s f fl).2.1 = s + f := by
  induction fl generalizing s f with
  | nil => rfl
  | cons q rest ih =>
    obtain ⟨i, img⟩ := q
    simp only [retryPass]
    simp only [List.length_cons] at hf
    by_cases h : download_image (net2 i) img = true
    · rw [if_pos h]
      have := ih (s + 1) (f - 1) (by omega)
      omega
    · rw [if_neg h]
      have := ih s f (by omega)
      omega

theorem retryPass_mono (net2 : Nat → Bool) (fl : List (Nat × ImgInfo))
    (s f : Nat) :
    s ≤ (retryPass net2 s f fl).1 ∧ (retryPass net2 s f fl).2.1 ≤ f := by
  induction fl generalizing s f with
  | nil => exact ⟨Nat.le_refl s, Nat.le_refl f⟩
  | cons q rest ih =>
    obtain ⟨i, img⟩ := q
    simp only [retryPass]
    by_cases h : download_image (net2 i) img = true
    · rw [if_pos h]
      have := ih (s + 1) (f - 1)
      omega
    · rw [if_neg h]
      exact ih s f

/-- C4: pass 1 records exactly one outcome per extracted item
(`successful + failed = N`), the failure collection lists each failed
item under its original index (indices strictly increasing, all below
`N`, one entry per pass-1 failure), the retry pass attempts exactly the
pass-1 failures, once each, in the original relative order, and the
counts after the retry pass still satisfy `successful + failed = N`,
with successes only growing and failures only shrinking. -/
theorem C4_two_pass_count_invariant (net1 net2 : Nat → Bool)
    (imgs : List ImgInfo) :
    (pass1 net1 0 imgs).1 + (pass1 net1 0 imgs).2.1 = imgs.length ∧
    (pass1 net1 0 imgs).2.2.length = (pass1 net1 0 imgs).2.1 ∧
    ((pass1 net1 0 imgs).2.2.map Prod.fst).Pairwise (· < ·) ∧
    (∀ q ∈ (pass1 net1 0 imgs).2.2, q.1 < imgs.length) ∧
    (retryPass net2 (pass1 net1 0 imgs).1 (pass1 net1 0 imgs).2.1
        (pass1 net1 0 imgs).2.2).2.2 = (pass1 net1 0 imgs).2.2.map Prod.fst ∧
    (retryPass net2 (pass1 net1 0 imgs).1 (pass1 net1 0 imgs).2.1
        (pass1 net1 0 imgs).2.2).1 +
      (retryPass net2 (pass1 net1 0 imgs).1 (pass1 net1 0 imgs).2.1
        (pass1 net1 0 imgs).2.2).2.1 = imgs.length ∧
    (pass1 net1 0 imgs).1 ≤
      (retryPass net2 (pass1 net1 0 imgs).1 (pass1 net1 0 imgs).2.1
        (pass1 net1 0 imgs).2.2).1 ∧
    (retryPass net2 (pass1 net1 0 imgs).1 (pass1 net1 0 imgs).2.1
        (pass1 net1 0 imgs).2.2).2.1 ≤ (pass1 net1 0 imgs).2.1 := by
  have hsum := pass1_sum net1 0 imgs
  have hlen := pass1_failed_length net1 0 imgs
  have hrsum := retryPass_sum net2 (pass1 net1 0 imgs).2.2
    (pass1 net1 0 imgs).1 (pass1 net1 0 imgs).2.1 (Nat.le_of_eq hlen)
  have hmono := retryPass_mono net2 (pass1 net1 0 imgs).2.2
    (pass1 net1 0 imgs).1 (pass1 net1 0 imgs).2.1
  refine ⟨hsum, hlen, pass1_failed_sorted net1 0 imgs, ?_,
    retryPass_attempts net2 _ _ _, by omega, hmono.1, hmono.2⟩
  intro q hq
  have := pass1_failed_bounds net1 0 imgs q hq
  omega

/-- Witness for C4 at a concrete run: one good item, one item whose
fetch fails in both passes. -/
theorem C4_two_pass_count_invariant_witness :
    (pass1 (fun i => i = 0) 0
        [⟨"https://x/a.png", "A", ""⟩, ⟨"https://x/b.png", "B", ""⟩]).1 +
      (pass1 (fun i => i = 0) 0
        [⟨"https://x/a.png", "A", ""⟩, ⟨"https://x/b.png", "B", ""⟩]).2.1 = 2 ∧
    (1, (⟨"https://x/b.png", "B", ""⟩ : ImgInfo)).1 < 2 := by
  have h := C4_two_pass_count_invariant (fun i => i = 0) (fun _ => false)
    [⟨"https://x/a.png", "A", ""⟩, ⟨"https://x/b.png", "B", ""⟩]
  exact ⟨h.1, h.2.2.2.1 (1, ⟨"https://x/b.png", "B", ""⟩) (by decide)⟩

/-! ## C2: references without an HTTP(S) scheme -/

/-- C2 counterexample: a single reference whose `sourceUrl` has no
HTTP(S) scheme.  The claim predicts that it contributes no outcome
record and leaves `failed_downloads` at 0; the code counts it as a
failed download, so the run summary reports one failure. -/
theorem C2_counterexample_non_http_counted_failed :
    (download_phase (fun _ => true) (fun _ => true) (fun _ => 0)
      (fun _ => false) "steam_images"
      [⟨"ftp://host/a.png", "Game", ""⟩]).failedDownloads = 1 := by decide

/-- C2 amended: a reference whose `sourceUrl` does not start with
`"http"`/`"https"` is rejected by `download_image` before any network
fetch (the result is `false` for every network oracle), but it is not
discarded: as the only item of a run it produces a failed outcome and
the run summary counts it among `failed_downloads`. -/
theorem C2_non_http_rejected_but_counted (net : Bool)
    (net1 net2 : Nat → Bool) (pyhash : String → Int)
    (fsExists : String → Bool) (folder : String) (img : ImgInfo)
    (h : pyStartsHttp img.src = false) :
    download_image net img = false ∧
    (download_phase net1 net2 pyhash fsExists folder
      [img]).failedDownloads = 1 ∧
    (download_phase net1 net2 pyhash fsExists folder
      [img]).successfulDownloads = 0 := by
  have hdl : ∀ b : Bool, download_image b img = false := by
    intro b
    unfold download_image
    rw [if_pos]
    simp [h]
  refine ⟨hdl net, ?_, ?_⟩ <;>
    simp [download_phase, pass1, retryPass, hdl]

/-- Witness for C2 at the concrete non-HTTP reference. -/
theorem C2_non_http_rejected_but_counted_witness :
    pyStartsHttp "ftp://host/a.png" = false ∧
    download_image true (⟨"ftp://host/a.png", "Game", ""⟩ : ImgInfo) = false := by
  refine ⟨by decide, ?_⟩
  exact (C2_non_http_rejected_but_counted true (fun _ => true) (fun _ => true)
    (fun _ => 0) (fun _ => false) "steam_images"
    ⟨"ftp://host/a.png", "Game", ""⟩ (by decide)).1

/-! ## C3: the post-retry failure report -/

/-- C3 counterexample: one reference with a valid URL whose fetch fails
in both passes, while its derived output file exists on disk at
reporting time.  The claim predicts that the item is excluded from both
the failure count and the failed-label list; the code excludes it only
from the label list and still reports `failedDownloads = 1`. -/
theorem C3_counterexample_count_not_filtered :
    (download_phase (fun _ => false) (fun _ => false) (fun _ => 0)
      (fun _ => true) "steam_images"
      [⟨"https://x/a.png", "Game", ""⟩]).failedDownloads = 1 ∧
    (download_phase (fun _ => false) (fun _ => false) (fun _ => 0)
      (fun _ => true) "steam_images"
      [⟨"https://x/a.png", "Game", ""⟩]).failedGames = [] := by
  constructor <;> decide

/-- C3 amended: only the failed-label list is filtered by the on-disk
idempotence check.  The numeric success/failure counts are independent
of the filesystem state at reporting time, while `failedGames` keeps
exactly the pass-1 failures whose derived path does not exist on disk,
in original order, under their display labels. -/
theorem C3_only_labels_filtered_by_disk (net1 net2 : Nat → Bool)
    (pyhash : String → Int) (fs fs' : String → Bool) (folder : String)
    (imgs : List ImgInfo) :
    (download_phase net1 net2 pyhash fs folder imgs).failedDownloads =
      (download_phase net1 net2 pyhash fs' folder imgs).failedDownloads ∧
    (download_phase net1 net2 pyhash fs folder imgs).successfulDownloads =
      (download_phase net1 net2 pyhash fs' folder imgs).successfulDownloads ∧
    (download_phase net1 net2 pyhash fs folder imgs).failedGames =
      ((pass1 net1 0 imgs).2.2.filter
        (fun q => !check_if_image_exists pyhash fs folder q.2)).map
        (fun q => q.2.alt) := by
  by_cases h : imgs.length = 0
  · have : imgs = [] := List.length_eq_zero.mp h
    subst this
    refine ⟨rfl, rfl, ?_⟩
    simp [download_phase, pass1]
  · simp [download_phase, h]

/-! ## C5: the placeholder-image marker -/

/-- C5: a reference whose `sourceUrl` contains the reserved placeholder
marker `"defaultappheader.png"` always yields a failed download, for
every network oracle — the early exit happens before the fetch, so the
outcome is independent of network conditions. -/
theorem C5_placeholder_marker_always_fails (net : Bool) (img : ImgInfo)
    (h : containsSubstr "defaultappheader.png" img.src = true) :
    download_image net img = false := by
  unfold download_image
  by_cases h1 : (img.src = "" || !pyStartsHttp img.src) = true
  · rw [if_pos h1]
  · rw [if_neg h1, if_pos h]

/-- Witness for C5 at a concrete placeholder URL, with the network
oracle reporting success. -/
theorem C5_placeholder_marker_always_fails_witness :
    containsSubstr "defaultappheader.png"
      "https://cdn.steam/defaultappheader.png" = true ∧
    download_image true
      (⟨"https://cdn.steam/defaultappheader.png", "Portal", ""⟩ : ImgInfo) =
      false := by
  refine ⟨by decide, ?_⟩
  exact C5_placeholder_marker_always_fails true
    ⟨"https://cdn.steam/defaultappheader.png", "Portal", ""⟩ (by decide)

/-! ## C6: determinism of filename derivation -/

/-- C6 counterexample: a reference with neither a usable `alt` label nor
a `title`, so the synthetic name comes from `str(hash(src))[-8:]`.
Python's string hash is salted per process, modelled by the `pyhash`
oracle; two runs whose hash oracles differ at the URL derive different
output paths, so the path is not a pure function of
(label, secondaryLabel, sourceUrl) across runs. -/
theorem C6_counterexample_hash_name_not_stable :
    derivePath (fun _ => 0) "steam_images"
        (⟨"https://x/u.png", "no_alt", ""⟩ : ImgInfo) ≠
      derivePath (fun _ => 1) "steam_images"
        (⟨"https://x/u.png", "no_alt", ""⟩ : ImgInfo) := by decide

/-- C6 amended: the derived output path is a pure function of
(label, secondaryLabel, sourceUrl) together with the run's string-hash
oracle; whenever the label fallback produces a nonempty base (so the
hash branch is not taken), the path is independent of the hash oracle
and therefore identical across runs. -/
theorem C6_nonempty_base_path_stable (h1 h2 : String → Int)
    (folder : String) (img : ImgInfo) (h : filenameBase img ≠ "") :
    derivePath h1 folder img = derivePath h2 folder img := by
  unfold derivePath deriveFilename
  rw [if_neg h, if_neg h]

/-- Witness for C6 at a labelled reference and two distinct hash
oracles. -/
theorem C6_nonempty_base_path_stable_witness :
    filenameBase (⟨"https://x/a.png", "Half-Life", ""⟩ : ImgInfo) ≠ "" ∧
    derivePath (fun _ => 0) "steam_images"
        (⟨"https://x/a.png", "Half-Life", ""⟩ : ImgInfo) =
      derivePath (fun _ => 1) "steam_images"
        (⟨"https://x/a.png", "Half-Life", ""⟩ : ImgInfo) := by
  refine ⟨by decide, ?_⟩
  exact C6_nonempty_base_path_stable (fun _ => 0) (fun _ => 1) "steam_images"
    ⟨"https://x/a.png", "Half-Life", ""⟩ (by decide)

/-! ## C7: style forcing in the Element Acquisition Protocol -/

/-- C7 counterexample: a page where only the final attempt (after the
diagnostic dump) locates the control.  The claim predicts that the
located control has its display/visibility/opacity forced to visible;
in the code the forcing scripts run only on the identifier-wait and
CSS-selector-wait paths, so here the control is bound without any
style forcing. -/
theorem C7_counterexample_no_style_forcing :
    locate_upload_control ⟨false, false, false, true⟩ =
      some (Strategy.final, false) := by decide

/-- C7 amended: whenever the Element Acquisition Protocol binds the
upload control, the control's display/visibility/opacity styling has
been forced to visible exactly when the identifier-wait or the
attribute-selector strategy located it; the click-then-retry and
final-attempt paths bind the control without style forcing. -/
theorem C7_style_forced_iff_wait_strategy (p : UploadPage) (s : Strategy)
    (b : Bool) (h : locate_upload_control p = some (s, b)) :
    b = true ↔ (s = Strategy.byId ∨ s = Strategy.byCss) := by
  rcases p with ⟨i, c, k, f⟩
  cases i <;> cases c <;> cases k <;> cases f <;>
    simp_all [locate_upload_control] <;>
    (obtain ⟨h1, h2⟩ := h; subst h1; decide)

/-- Witness for C7 at the click-then-retry page. -/
theorem C7_style_forced_iff_wait_strategy_witness :
    (false = true ↔
      (Strategy.click = Strategy.byId ∨ Strategy.click = Strategy.byCss)) := by
  exact C7_style_forced_iff_wait_strategy ⟨false, false, true, true⟩
    Strategy.click false (by decide)

/-! ## C1: the login-timeout path of `scrape_images` -/

/-- C1: the code contradicts the claim (and its own docstring and
return annotation).  On a page whose root-level class attribute still
contains the login indicator at every poll — so the 300-second ceiling
at 3-second intervals is exhausted — `scrape_images` executes the bare
`return` at src/steam_image_scraper.py line 315 and produces `None`
(here `none`), not a structured failure result the caller can inspect. -/
theorem C1_login_timeout_returns_none :
    scrape_images "https://steamcommunity.com/id/u/games"
      (fun _ => "login_page flat_page") (fun _ => true) (fun _ => true)
      (fun _ => 0) (fun _ => false) "steam_images" [] = none := by decide

/-! ## C8: the scroll loop -/

/-- Full characterisation of the scroll-loop body: at most `r` offsets
are emitted; the offsets are the consecutive increments
`cur + inc, cur + 2·inc, …`; the loop continued past an emitted offset
only while the offset was still below the height read at that
iteration; and an early exit (fewer than `r` offsets) happens only
because the last emitted offset reached the height read then. -/
theorem scrollSteps_spec (hs : Nat → Nat) (inc : Nat) :
    ∀ r cur t : Nat,
      (scrollSteps hs inc cur t r).length ≤ r ∧
      scrollSteps hs inc cur t r =
        (List.range (scrollSteps hs inc cur t r).length).map
          (fun j => cur + inc * (j + 1)) ∧
      (∀ j, j + 1 < (scrollSteps hs inc cur t r).length →
        cur + inc * (j + 1) < hs (t + j)) ∧
      ((scrollSteps hs inc cur t r).length < r →
        0 < (scrollSteps hs inc cur t r).length ∧
        hs (t + ((scrollSteps hs inc cur t r).length - 1)) ≤
          cur + inc * (scrollSteps hs inc cur t r).length) := by
  intro r
  induction r with
  | zero =>
    intro cur t
    refine ⟨Nat.le_refl 0, rfl, ?_, ?_⟩
    · intro j hj
      simp only [scrollSteps, List.length_nil] at hj
      omega
    · intro hlt
      simp only [scrollSteps, List.length_nil] at hlt
      omega
  | succ r ih =>
    intro cur t
    have hsteps : scrollSteps hs inc cur t (r + 1) =
        (cur + inc) ::
          (if hs t ≤ cur + inc then []
           else scrollSteps hs inc (cur + inc) (t + 1) r) := rfl
    by_cases hstop : hs t ≤ cur + inc
    · rw [hsteps, if_pos hstop]
      simp only [List.length_cons, List.length_nil]
      refine ⟨by omega, ?_, ?_, ?_⟩
      · simp [List.range_succ]
      · intro j hj
        omega
      · intro _
        refine ⟨by omega, ?_⟩
        simpa using hstop
    · rw [hsteps, if_neg hstop]
      obtain ⟨ih1, ih2, ih3, ih4⟩ := ih (cur + inc) (t + 1)
      simp only [List.length_cons]
      refine ⟨by omega, ?_, ?_, ?_⟩
      · rw [List.range_succ_eq_map, List.map_cons, List.map_map]
        congr 1
        · simp
        · rw [ih2]
          simp only [List.length_map, List.length_range]
          apply List.map_congr_left
          intro j _
          simp only [Function.comp_apply, Nat.succ_eq_add_one]
          ring
      · intro j hj
        cases j with
        | zero =>
          simp only [Nat.add_zero, Nat.mul_one]
          omega
        | succ k =>
          have hk : k + 1 < (scrollSteps hs inc (cur + inc) (t + 1) r).length := by
            omega
          have h3 := ih3 k hk
          have e1 : t + (k + 1) = t + 1 + k := by omega
          have e2 : cur + inc * (k + 1 + 1) = cur + inc + inc * (k + 1) := by ring
          rw [e1, e2]
          exact h3
      · intro hlt
        have h4 := ih4 (by omega)
        refine ⟨by omega, ?_⟩
        have e1 : t + ((scrollSteps hs inc (cur + inc) (t + 1) r).length + 1 - 1) =
            t + 1 + ((scrollSteps hs inc (cur + inc) (t + 1) r).length - 1) := by
          omega
        have e2 : cur + inc * ((scrollSteps hs inc (cur + inc) (t + 1) r).length + 1) =
            cur + inc + inc * (scrollSteps hs inc (cur + inc) (t + 1) r).length := by
          ring
        rw [e1, e2]
        exact h4.2

/-- C8: `_scroll_to_load_all_content` always terminates with a trace of
at most `maxAttempts` scroll increments (the offsets advancing by one
viewport height each), it continues past an increment only while the
offset is below the height the page reported at that iteration, an
early exit happens only once the offset has reached or passed the
reported height, and on every completion path the final command
scrolls back to the top of the page. -/
theorem C8_scroll_loop_bounded_and_returns_to_top (hs : Nat → Nat)
    (inc maxAttempts : Nat) :
    scroll_to_load_all_content hs inc maxAttempts =
      scrollSteps hs inc 0 0 maxAttempts ++ [0] ∧
    (scrollSteps hs inc 0 0 maxAttempts).length ≤ maxAttempts ∧
    (scroll_to_load_all_content hs inc maxAttempts).getLast? = some 0 ∧
    scrollSteps hs inc 0 0 maxAttempts =
      (List.range (scrollSteps hs inc 0 0 maxAttempts).length).map
        (fun j => inc * (j + 1)) ∧
    (∀ j, j + 1 < (scrollSteps hs inc 0 0 maxAttempts).length →
      inc * (j + 1) < hs j) ∧
    ((scrollSteps hs inc 0 0 maxAttempts).length < maxAttempts →
      0 < (scrollSteps hs inc 0 0 maxAttempts).length ∧
      hs ((scrollSteps hs inc 0 0 maxAttempts).length - 1) ≤
        inc * (scrollSteps hs inc 0 0 maxAttempts).length) := by
  obtain ⟨h1, h2, h3, h4⟩ := scrollSteps_spec hs inc maxAttempts 0 0
  refine ⟨rfl, h1, ?_, ?_, ?_, ?_⟩
  · unfold scroll_to_load_all_content
    rw [List.getLast?_concat]
  · simpa using h2
  · intro j hj
    simpa using h3 j hj
  · intro hlt
    simpa using h4 hlt

/-- Witness for C8: a page of fixed height 10, viewport increment 4 and
attempt budget 5; the loop stops early after three increments and
scrolls back to the top. -/
theorem C8_scroll_loop_bounded_and_returns_to_top_witness :
    (scroll_to_load_all_content (fun _ => 10) 4 5).getLast? = some 0 ∧
    4 * (0 + 1) < (fun _ : Nat => 10) 0 ∧
    (0 < (scrollSteps (fun _ => 10) 4 0 0 5).length ∧
      (fun _ : Nat => 10) ((scrollSteps (fun _ => 10) 4 0 0 5).length - 1) ≤
        4 * (scrollSteps (fun _ => 10) 4 0 0 5).length) := by
  have h := C8_scroll_loop_bounded_and_returns_to_top (fun _ => 10) 4 5
  exact ⟨h.2.2.1, h.2.2.2.2.1 0 (by decide), h.2.2.2.2.2 (by decide)⟩

/-! ## C9: the upload batch -/

/-- The accumulation loop of `get_image_files` is filter-then-map:
it keeps exactly the names accepted by the extension test, joined to
the folder, in listing order.  The right-hand side spells out the
spec's description of the UploadBatch. -/
theorem gatherImages_eq_filter_map (folder : String) (listing : List String) :
    gatherImages folder listing =
      (listing.filter isImageFilename).map (fun f => folder ++ "/" ++ f) := by
  induction listing with
  | nil => rfl
  | cons f rest ih =>
    by_cases h : isImageFilename f = true
    · simp only [gatherImages, List.filter_cons, h, if_pos, List.map_cons]
      rw [ih]
    · simp only [gatherImages, List.filter_cons, h]
      rw [if_neg (by simp [h]), ih]
      simp [h]

/-- C9: for an existing upload directory, the UploadBatch is exactly
the directory listing filtered to the names ending (case-insensitively)
in a recognized image extension, resolved through `os.path.abspath`, in
directory-listing order; in particular a directory listing
`[a.jpg, b.png, notes.txt]` yields exactly the two image files with
`notes.txt` excluded. -/
theorem C9_upload_batch_filters_extensions (abspath : String → String)
    (folder : String) (listing : List String) :
    uploadBatch abspath true folder listing =
      (listing.filter isImageFilename).map
        (fun f => abspath (folder ++ "/" ++ f)) ∧
    isImageFilename "a.jpg" = true ∧
    isImageFilename "b.png" = true ∧
    isImageFilename "notes.txt" = false ∧
    uploadBatch abspath true folder ["a.jpg", "b.png", "notes.txt"] =
      [abspath (folder ++ "/" ++ "a.jpg"), abspath (folder ++ "/" ++ "b.png")] := by
  refine ⟨?_, by decide, by decide, by decide, ?_⟩
  · unfold uploadBatch get_image_files
    rw [if_neg (by decide)]
    rw [gatherImages_eq_filter_map, List.map_map]
    rfl
  · rfl

end SteamToTiermaker
